import Mathlib

/-!
Verification development for the CVSAnalY `Metrics` extension
(`pycvsanaly2/extensions/Metrics.py`).

The Python source is shallowly embedded: Python 2 integers become `Int`
(Python 2 `/` on integers is floor division, embedded as `Int.fdiv`),
Python lists become `List`, values that may be `None` become `Option`,
and code that can raise an exception returns `Option`/`Except` with
`none`/`.error` marking the raising executions.  External collaborators
(the VCS backend, the filesystem, the measurement tools) are passed in as
explicit environment records, mirroring the points where the source calls
out of the module.
-/

namespace Metrics

/-! ### Python string primitives used by the source -/

/-- Python `s.split(c)` for a one-character separator, on an explicit
character list accumulator.  `"".split(c) = [""]`, separators at the ends
produce empty fields, exactly as in Python. -/
def splitCharAux (c : Char) : List Char → List Char → List String
  | [], acc => [String.mk acc.reverse]
  | x :: xs, acc =>
    if x = c then String.mk acc.reverse :: splitCharAux c xs []
    else splitCharAux c xs (x :: acc)

/-- Python `s.split(c)` for a one-character separator. -/
def splitChar (c : Char) (s : String) : List String :=
  splitCharAux c s.data []

/-- Helper for Python substring membership: does `needle` occur at the head
of `hay`? -/
def strStartsWith : List Char → List Char → Bool
  | [], _ => true
  | _ :: _, [] => false
  | x :: xs, y :: ys => x = y && strStartsWith xs ys

/-- Python `needle in hay` for strings (substring containment). -/
def strContains (needle : List Char) : List Char → Bool
  | [] => strStartsWith needle []
  | h :: t => strStartsWith needle (h :: t) || strContains needle t

/-- Python `s.strip('/')`: drop `'/'` characters from both ends. -/
def stripSlashes (s : String) : String :=
  String.mk (((s.data.dropWhile (fun c => c = '/')).reverse.dropWhile
    (fun c => c = '/')).reverse)

/-- Parse a nonempty all-digit character list to a natural number;
`none` otherwise. -/
def digitsToNat (cs : List Char) : Option Nat :=
  if cs ≠ [] ∧ cs.all Char.isDigit then
    some (cs.foldl (fun acc c => acc * 10 + (c.toNat - 48)) 0)
  else none

/-- Python 2 `int(s)` on a string: optional surrounding whitespace, an
optional sign, then decimal digits; raises (`none`) otherwise. -/
def pyInt (s : String) : Option Int :=
  let cs := ((s.data.dropWhile Char.isWhitespace).reverse.dropWhile
    Char.isWhitespace).reverse
  match cs with
  | '-' :: ds => (digitsToNat ds).map (fun n => -(n : Int))
  | '+' :: ds => (digitsToNat ds).map (fun n => (n : Int))
  | ds => (digitsToNat ds).map (fun n => (n : Int))

/-- Python list indexing `l[i]` including the negative-index convention;
`none` is an `IndexError`. -/
def pyIndex (l : List Int) (i : Int) : Option Int :=
  if 0 ≤ i then l[i.toNat]?
  else if 0 ≤ (l.length : Int) + i then l[((l.length : Int) + i).toNat]?
  else none

/-! ### `FileMetrics._get_mccabe_stats` (Metrics.py lines 107-131) -/

/-- Embedding of `FileMetrics._get_mccabe_stats (nfunctions, mccabe_values)`.

Python 2 `/` on ints is floor division (`Int.fdiv`); `min`/`max` of an
empty list raise `ValueError`; when `nfunctions` makes neither
`mccabe_mean` nor `mccabe_median` get assigned, the final `return` raises
`NameError`.  All raising executions are `none`.  On the `nfunctions >= 2`
branch `nfunctions & 1` equals `nfunctions % 2 = 1` because that branch
only sees nonnegative values.  `mccabe_values.sort ()` sorts ascending,
embedded as `List.insertionSort`; `n` is the length of the sorted list. -/
def getMccabeStats (nfunctions : Int) (mccabe_values : List Int) :
    Option (Int × Int × Int × Int × Int) :=
  let mccabe_sum := mccabe_values.sum
  let mean? : Option Int :=
    if 1 ≤ nfunctions then some (Int.fdiv mccabe_sum nfunctions) else none
  match mccabe_values.min?, mccabe_values.max? with
  | some mccabe_min, some mccabe_max =>
    let sorted := List.insertionSort (fun a b => a ≤ b) mccabe_values
    if nfunctions = 1 then
      match mean? with
      | some m => some (mccabe_sum, mccabe_min, mccabe_max, m, m)
      | none => none
    else if 2 ≤ nfunctions then
      let n : Int := (sorted.length : Int)
      let median? : Option Int :=
        if nfunctions % 2 = 1 then pyIndex sorted (Int.fdiv n 2)
        else
          match pyIndex sorted (Int.fdiv n 2 - 1), pyIndex sorted (Int.fdiv n 2) with
          | some a, some b => some (Int.fdiv (a + b) 2)
          | _, _ => none
      match mean?, median? with
      | some m, some md => some (mccabe_sum, mccabe_min, mccabe_max, m, md)
      | _, _ => none
    else none
  | _, _ => none

/-- The median as the specification's words describe it: sort ascending;
odd count takes the middle element, even count takes the floor-divided
average of the two central elements.  Stated for comparison with the
code-derived `getMccabeStats`. -/
def medianOfSpec (values : List Int) : Int :=
  let sorted := List.insertionSort (fun a b => a ≤ b) values
  let n := sorted.length
  if n % 2 = 1 then sorted.getD (n / 2) 0
  else Int.fdiv (sorted.getD (n / 2 - 1) 0 + sorted.getD (n / 2) 0) 2

/-! ### The two McCabe output parsers

`FileMetricsC.get_MccabeComplexity` (lines 186-217) splits each output
line on tabs, requires exactly five fields, and takes `int (values[-2])`
with `0` on a parse failure.  `FileMetricsPython.get_MccabeComplexity`
(lines 253-277) matches each output line against the regular expression
`^[ \b\t]+([0-9]+)[ \b\t]+(.*)$` and takes `int` of the first group.
Both count `nfunctions` alongside the collected values. -/

/-- One line of the C `mccabe` tool output: `l.split ('\t')`, exactly five
fields required, `int (values[-2])` (index 3) with `0` on failure. -/
def parseLineC (l : String) : Option Int :=
  let values := splitChar '\t' l
  if values.length ≠ 5 then none
  else some ((pyInt (values.getD 3 "")).getD 0)

/-- The accumulation loop of `FileMetricsC.get_MccabeComplexity`:
`nfunctions` and `mccabe_values` threaded over the output lines. -/
def mccabeParseCAux : List String → Int → List Int → Int × List Int
  | [], nfunctions, mccabe_values => (nfunctions, mccabe_values)
  | l :: ls, nfunctions, mccabe_values =>
    match parseLineC l with
    | none => mccabeParseCAux ls nfunctions mccabe_values
    | some v => mccabeParseCAux ls (nfunctions + 1) (mccabe_values ++ [v])

/-- `nfunctions` and `mccabe_values` as collected by
`FileMetricsC.get_MccabeComplexity` from the tool's output lines. -/
def mccabeParseC (outputlines : List String) : Int × List Int :=
  mccabeParseCAux outputlines 0 []

/-- Character class `[ \b\t]` of the pymetrics patterns (`\b` inside a
character class is the backspace character). -/
def spaceClass (c : Char) : Bool :=
  c = ' ' || c = '\x08' || c = '\t'

/-- Matching one output line against `^[ \b\t]+([0-9]+)[ \b\t]+(.*)$` and
taking `int` of the first capture group.  With greedy character classes
that share no characters, the match succeeds exactly when the line starts
with at least one `[ \b\t]` character, then at least one digit, then at
least one `[ \b\t]` character, with arbitrary text after; group 1 is the
maximal digit run. -/
def matchMccabeLine (line : String) : Option Nat :=
  let rest := line.data.dropWhile spaceClass
  if (line.data.takeWhile spaceClass) = [] then none
  else
    let digs := rest.takeWhile Char.isDigit
    let rest2 := rest.dropWhile Char.isDigit
    if digs = [] then none
    else if (rest2.takeWhile spaceClass) = [] then none
    else digitsToNat digs

/-- The accumulation loop of `FileMetricsPython.get_MccabeComplexity`. -/
def mccabeParsePyAux : List String → Int → List Int → Int × List Int
  | [], nfunctions, mccabe_values => (nfunctions, mccabe_values)
  | l :: ls, nfunctions, mccabe_values =>
    match matchMccabeLine l with
    | none => mccabeParsePyAux ls nfunctions mccabe_values
    | some v => mccabeParsePyAux ls (nfunctions + 1) (mccabe_values ++ [(v : Int)])

/-- `nfunctions` and `mccabe_values` as collected by
`FileMetricsPython.get_MccabeComplexity` from the tool's output lines. -/
def mccabeParsePy (outputlines : List String) : Int × List Int :=
  mccabeParsePyAux outputlines 0 []

/-- `FileMetricsC.get_MccabeComplexity` from the tool's output lines to
the returned six-tuple `(sum, min, max, mean, median, nfunctions)`; outer
`none` is an escaping exception, inner `none`s are Python `None`. -/
def getMccabeComplexityC (outputlines : List String) :
    Option (Option Int × Option Int × Option Int × Option Int × Option Int × Option Int) :=
  let p := mccabeParseC outputlines
  if p.2 = [] then some (none, none, none, none, none, none)
  else
    match getMccabeStats p.1 p.2 with
    | some (s, mn, mx, me, md) => some (some s, some mn, some mx, some me, some md, some p.1)
    | none => none

/-- `FileMetricsPython.get_MccabeComplexity`, analogously. -/
def getMccabeComplexityPython (outputlines : List String) :
    Option (Option Int × Option Int × Option Int × Option Int × Option Int × Option Int) :=
  let p := mccabeParsePy outputlines
  if p.2 = [] then some (none, none, none, none, none, none)
  else
    match getMccabeStats p.1 p.2 with
    | some (s, mn, mx, me, md) => some (some s, some mn, some mx, some me, some md, some p.1)
    | none => none

/-! ### The materializer retry loops
(`Metrics.__checkout`, lines 493-512, and `Metrics.__update`, lines
514-527)

Both methods run the identical loop `count = 0; while RETRIES - count >=
0:`: issue one backend `checkout`/`update` attempt, then verify by asking
`repo.get_last_revision` for the revision of the materialized path; on a
match, `break`; an exception from the verification call is caught and
logged; either way `count += 1` and the loop re-tests `count <= RETRIES`.
The backend verification is the environment: `getLast k` is what
`get_last_revision` does on the attempt with `count = k` (`Except.error`
for a raised exception).  The embedding returns the number of
checkout/update attempts issued; the loop itself never raises. -/

/-- `Metrics.RETRIES` (line 400). -/
def RETRIES : Nat := 1

/-- The shared retry loop body of `__checkout`/`__update`, with `fuel`
keeping the Python invariant `fuel = RETRIES + 1 - count`; returns the
number of attempts issued. -/
def retryLoopAux (rev : String) (getLast : Nat → Except String String) :
    Nat → Nat → Nat
  | 0, count => count
  | fuel + 1, count =>
    match getLast count with
    | Except.ok newRev =>
      if rev = newRev then count + 1
      else retryLoopAux rev getLast fuel (count + 1)
    | Except.error _ => retryLoopAux rev getLast fuel (count + 1)

/-- Number of `repo.checkout` attempts `Metrics.__checkout` issues. -/
def checkoutAttempts (retries : Nat) (rev : String)
    (getLast : Nat → Except String String) : Nat :=
  retryLoopAux rev getLast (retries + 1) 0

/-- Number of `repo.update` attempts `Metrics.__update` issues. -/
def updateAttempts (retries : Nat) (rev : String)
    (getLast : Nat → Except String String) : Nat :=
  retryLoopAux rev getLast (retries + 1) 0

/-! ### The collection driver loop (`Metrics.run`, lines 536-759)

The per-item loop (lines 619-744) is embedded as a step function over an
explicit state.  External collaborators are an environment record:

* `path_is_deleted` and `path_for_revision` are the history oracles
  `path_is_deleted_for_revision` / `get_path_for_revision` imported from
  `pycvsanaly2.utils` (pure database queries);
* `checkoutEffect`/`updateEffect` describe what one `__checkout` /
  `__update` call leaves on disk under `tmpdir` (the retry internals are
  the previous section; here only their final filesystem effect matters);
* `measure` abstracts the whole per-file analyzer phase (lines 674-730,
  `create_file_metrics` plus the five measurement blocks): it produces
  the measured payload of type `μ` from the content of the materialized
  file.  The payload type is opaque to the driver, exactly as the driver
  only ever forwards `measures` into the insert tuple.

`ops` records every `__checkout`/`__update` call the loop issues and
`measured` every analyzer invocation; `errors` records the `printerr`
calls of the directory/missing checks (lines 666-672; note the directory
branch has no `printerr`); `flushes` records the size of each (non-empty)
`__insert_many` bulk insert. -/

/-- What the filesystem has at one path under `tmpdir`. -/
inductive PathKind where
  | absent : PathKind
  | dir : PathKind
  | file (content : String) : PathKind
deriving DecidableEq

/-- A row appended to `self.metrics` and later inserted:
`(id_counter, file_id, commit_id, measures...)` (lines 732-736). -/
structure MRow (μ : Type) where
  id : Nat
  file_id : Nat
  commit_id : Nat
  meas : μ
deriving DecidableEq

/-- One tuple of the work-item query (line 605):
`(rev, path, a.commit_id, a.file_id, composed_rev)`. -/
structure WorkItem where
  revision : String
  path : String
  commit_id : Nat
  file_id : Nat
  composed : Bool
deriving DecidableEq

/-- The external collaborators of the loop. -/
structure Env (μ : Type) where
  repoType : String
  topdirs : List (String × String)
  path_is_deleted : String → Nat → String → Bool
  path_for_revision : String → Nat → String → String
  checkoutEffect : String → String → (String → PathKind) → (String → PathKind)
  updateEffect : String → String → (String → PathKind) → (String → PathKind)
  measure : String → μ

/-- The loop state of `Metrics.run`. -/
structure RunState (μ : Type) where
  idCounter : Nat
  currentRevision : Option String
  pending : List (MRow μ)
  inserted : List (MRow μ)
  disk : String → PathKind
  ops : List (String × String × String)
  measured : List (String × String)
  errors : List String
  flushes : List Nat

/-- `Metrics.MAX_METRICS` (line 407). -/
def MAX_METRICS : Nat := 100

/-- Lines 623-626: composed revisions keep only the leading
`"|"`-separated component. -/
def resolveRev (it : WorkItem) : String :=
  if it.composed then (splitChar '|' it.revision).headD "" else it.revision

/-- Lines 645-655, one iteration of the svn topdir loop: skip the pair
already covered by the initial checkout, skip non-matching prefixes,
otherwise `__update` the subtree. -/
def svnUpdateStep (env : Env μ) (relative_path rev : String)
    (s : RunState μ) (td : String × String) : RunState μ :=
  if relative_path = td.1 ∧ rev = td.2 then s
  else if ¬ (strStartsWith td.1.data relative_path.data = true) then s
  else { s with disk := env.updateEffect td.1 rev s.disk,
                ops := s.ops ++ [("update", td.1, rev)] }

/-- Lines 643-664: when the revision differs from `current_revision`,
materialize — for `svn`, update every top-level subtree whose prefix
matches (skipping the one already produced by the initial checkout);
otherwise a per-file checkout — then remember `current_revision`. -/
def materializePhase (env : Env μ) (st : RunState μ)
    (relative_path rev revision : String) : RunState μ :=
  if some revision ≠ st.currentRevision then
    let st1 :=
      if env.repoType = "svn" then
        env.topdirs.foldl (svnUpdateStep env relative_path rev) st
      else
        { st with disk := env.checkoutEffect relative_path rev st.disk,
                  ops := st.ops ++ [("checkout", relative_path, rev)] }
    { st1 with currentRevision := some revision }
  else st

/-- Lines 666-744: the directory/missing checks, the analyzer phase, the
append to `self.metrics`, the threshold flush, and `id_counter += 1`. -/
def measurePhase (env : Env μ) (st : RunState μ) (it : WorkItem)
    (relative_path rev : String) : RunState μ :=
  match st.disk relative_path with
  | PathKind.dir => st
  | PathKind.absent => { st with errors := st.errors ++ [relative_path] }
  | PathKind.file content =>
    let st1 := { st with
      measured := st.measured ++ [(relative_path, rev)],
      pending := st.pending ++
        [({ id := st.idCounter, file_id := it.file_id, commit_id := it.commit_id,
            meas := env.measure content } : MRow μ)] }
    let st2 :=
      if MAX_METRICS ≤ st1.pending.length then
        { st1 with inserted := st1.inserted ++ st1.pending, pending := [],
                   flushes := st1.flushes ++ [st1.pending.length] }
      else st1
    { st2 with idCounter := st2.idCounter + 1 }

/-- Lines 628-641: `relative_path` as used for the checkout — translated
through `get_path_for_revision` and stripped of slashes for every
non-CVS repository, the raw query path for CVS. -/
def relativePathOf (env : Env μ) (it : WorkItem) : String :=
  if env.repoType ≠ "cvs" then
    stripSlashes (env.path_for_revision it.path it.file_id (resolveRev it))
  else it.path

/-- One iteration of the work-item loop (lines 619-744).  `skipSet` is
the in-memory list read by `__get_metrics` at start-up; it is not updated
during the run. -/
def processItem (env : Env μ) (skipSet : List (Nat × Nat))
    (st : RunState μ) (it : WorkItem) : RunState μ :=
  if (it.file_id, it.commit_id) ∈ skipSet then st
  else if env.repoType ≠ "cvs" ∧
      env.path_is_deleted it.path it.file_id (resolveRev it) = true then st
  else
    measurePhase env
      (materializePhase env st (relativePathOf env it) (resolveRev it) it.revision)
      it (relativePathOf env it) (resolveRev it)

/-- Lines 746-748: the final `__insert_many` (which returns at once on an
empty batch) plus commit. -/
def finalFlush (st : RunState μ) : RunState μ :=
  match st.pending with
  | [] => st
  | _ :: _ =>
    { st with inserted := st.inserted ++ st.pending, pending := [],
              flushes := st.flushes ++ [st.pending.length] }

/-- The whole work-item loop over the query results, then the final
flush. -/
def runMetrics (env : Env μ) (skipSet : List (Nat × Nat))
    (items : List WorkItem) (st0 : RunState μ) : RunState μ :=
  finalFlush (items.foldl (processItem env skipSet) st0)

/-- The state at loop entry: `id_counter` as seeded, `current_revision =
None`, empty batches, the given workspace contents. -/
def initState (seed : Nat) (disk0 : String → PathKind) : RunState μ :=
  ⟨seed, none, [], [], disk0, [], [], [], []⟩

/-- Lines 541-553: `id_counter = 1`; on `TableAlreadyExists`,
`SELECT max(id)` and, when it is not NULL, `id_counter = id + 1`. -/
def seedId (tableExisted : Bool) (maxId : Option Nat) : Nat :=
  if tableExisted then
    match maxId with
    | some m => m + 1
    | none => 1
  else 1

/-- The ids currently assigned to rows, inserted or still pending, in
insertion order. -/
def allIds (st : RunState μ) : List Nat :=
  (st.inserted ++ st.pending).map MRow.id

/-! ### `create_file_metrics` and `get_SLOCLang`
(lines 372-392 and 95-96)

`create_file_metrics` initializes `sloc = 0`, `lang = 'unknown'`; only
when `find_program ('sloccount')` locates the tool does it run it and scan
the output for a line containing `"\ttop_dir\t"`, whose four tab-separated
fields rebind `sloc` (as a string!) and `lang`; a `top_dir` line without
exactly four fields raises `ValueError` out of the function.  The object
it returns carries `(path, lang, sloc)`; `FileMetrics.get_SLOCLang`
returns `(self.sloc, self.lang)` and can never raise, so the
`except ProgramNotFound` handler around the SLOC block (lines 690-691)
never fires.  Python values that may be an `int` or a `str` are `PyV`. -/

/-- A Python value that is either an integer or a string. -/
inductive PyV where
  | vint (n : Int)
  | vstr (s : String)
deriving DecidableEq

/-- The fields of the `FileMetrics` object relevant to `get_SLOCLang`
(the `lang`-keyed subclass choice affects only the other methods). -/
structure FMObj where
  path : String
  lang : String
  sloc : PyV
deriving DecidableEq

/-- `create_file_metrics (path)`, with `sloccountFound` telling whether
`find_program ('sloccount')` located the tool and `outputlines` the
sloccount output lines when it ran; `.error` is an escaping exception. -/
def create_file_metrics (sloccountFound : Bool) (outputlines : List String)
    (path : String) : Except String FMObj :=
  if sloccountFound then
    match outputlines.foldl (fun acc l =>
      match acc with
      | Except.error e => Except.error e
      | Except.ok (sloc, lang) =>
        if strContains "\ttop_dir\t".data l.data then
          match splitChar '\t' l with
          | [a, b, _, _] => Except.ok (PyV.vstr a, b)
          | _ => Except.error "ValueError"
        else Except.ok (sloc, lang)) (Except.ok (PyV.vint 0, "unknown")) with
    | Except.ok (sloc, lang) => Except.ok { path := path, lang := lang, sloc := sloc }
    | Except.error e => Except.error e
  else Except.ok { path := path, lang := "unknown", sloc := PyV.vint 0 }

/-- `FileMetrics.get_SLOCLang` (lines 95-96). -/
def get_SLOCLang (fm : FMObj) : PyV × String :=
  (fm.sloc, fm.lang)

/-- The SLOC measurement block of `Metrics.run` (lines 674 and 687-694):
build the file-metrics object, then assign
`measures.sloc, measures.lang = fm.get_SLOCLang ()`.  The first component
of the result is the `measures.sloc` dictionary slot, whose `none` would
be the untouched Python `None` default. -/
def runSlocPhase (sloccountFound : Bool) (outputlines : List String)
    (path : String) : Except String (Option PyV × String) :=
  match create_file_metrics sloccountFound outputlines path with
  | Except.error e => Except.error e
  | Except.ok fm => Except.ok (some (get_SLOCLang fm).1, (get_SLOCLang fm).2)

/-! ### Concrete scenarios used to instantiate the driver model -/

/-- A non-svn, non-cvs environment where a per-file checkout materializes
exactly the requested path (spec section 4.3: "if per-file, issue a fresh
checkout of that single path at R"), measurement records the file
content and nothing is deleted or renamed. -/
def resumeEnv : Env String :=
  { repoType := "git", topdirs := [],
    path_is_deleted := fun _ _ _ => false,
    path_for_revision := fun p _ _ => p,
    checkoutEffect := fun p r d => fun q => if q = p then PathKind.file (p ++ "@" ++ r) else d q,
    updateEffect := fun _ _ d => d,
    measure := fun c => c }

/-- An initially empty workspace. -/
def resumeDisk : String → PathKind := fun _ => PathKind.absent

/-- Two work items of the same commit/revision touching different files,
as a commit touching two files produces. -/
def resumeItems : List WorkItem :=
  [{ revision := "r1", path := "a", commit_id := 1, file_id := 1, composed := false },
   { revision := "r1", path := "b", commit_id := 1, file_id := 2, composed := false }]

/-- First run: fresh table, empty skip-set. -/
def resumeRun1 : RunState String :=
  runMetrics resumeEnv [] resumeItems (initState (seedId false none) resumeDisk)

/-- Second run against the same repository state: the skip-set and id
seed are read back from what the first run inserted (its single row has
id 1, so `max(id) = 1`). -/
def resumeRun2 : RunState String :=
  runMetrics resumeEnv (resumeRun1.inserted.map (fun r => (r.file_id, r.commit_id)))
    resumeItems (initState (seedId true (some 1)) resumeDisk)

/-- Environment for the batch-flush scenario: every item measures. -/
def batchEnv : Env Unit :=
  { repoType := "git", topdirs := [],
    path_is_deleted := fun _ _ _ => false,
    path_for_revision := fun p _ _ => p,
    checkoutEffect := fun p _ d => fun q => if q = p then PathKind.file p else d q,
    updateEffect := fun _ _ d => d,
    measure := fun _ => () }

/-- One measurable work item, repeated to drive the batch scenario. -/
def batchItem : WorkItem :=
  { revision := "r", path := "p", commit_id := 0, file_id := 0, composed := false }

/-- Loop-entry state for the batch scenario. -/
def batchInit : RunState Unit := initState 1 (fun _ => PathKind.absent)

/-- A run of the driver producing `n` measurement records. -/
def batchRun (n : Nat) : RunState Unit :=
  runMetrics batchEnv [] (List.replicate n batchItem) batchInit

/-- Environment for the directory/missing scenario: checkout has no
filesystem effect (the paths in question stay what the workspace had). -/
def dirEnv : Env Unit :=
  { repoType := "git", topdirs := [],
    path_is_deleted := fun _ _ _ => false,
    path_for_revision := fun p _ _ => p,
    checkoutEffect := fun _ _ d => d,
    updateEffect := fun _ _ d => d,
    measure := fun _ => () }

/-- A workspace where `"somedir"` is a directory and all else is absent. -/
def dirDisk : String → PathKind :=
  fun p => if p = "somedir" then PathKind.dir else PathKind.absent

/-- A work item whose materialized path is the directory. -/
def dirItem : WorkItem :=
  { revision := "r1", path := "somedir", commit_id := 5, file_id := 7, composed := false }

/-- A work item whose materialized path does not exist on disk. -/
def missItem : WorkItem :=
  { revision := "r1", path := "missing", commit_id := 6, file_id := 8, composed := false }

/-! ### Facts about the statistics helper -/

lemma pyIndex_natCast (l : List Int) (i : Nat) (h : i < l.length) :
    pyIndex l (i : Int) = some l[i] := by
  unfold pyIndex
  rw [if_pos (by exact_mod_cast Nat.zero_le i)]
  rw [Int.toNat_ofNat]
  exact List.getElem?_eq_getElem h

/-- On a nonempty value list with `nfunctions` equal to the list length —
the situation at every call site — `_get_mccabe_stats` returns the sum,
the minimum, the maximum, the floor-divided mean, and the median as the
specification describes it, raising no exception. -/
theorem getMccabeStats_eq_of_len (values : List Int) (h : values ≠ []) :
    ∃ mn mx, values.min? = some mn ∧ values.max? = some mx ∧
      getMccabeStats (values.length : Int) values =
        some (values.sum, mn, mx, Int.fdiv values.sum (values.length : Int),
          medianOfSpec values) := by
  obtain ⟨v, vs, rfl⟩ : ∃ v vs, values = v :: vs := by
    cases values with
    | nil => exact absurd rfl h
    | cons v vs => exact ⟨v, vs, rfl⟩
  refine ⟨vs.foldl min v, vs.foldl max v, rfl, rfl, ?_⟩
  unfold getMccabeStats
  simp only [List.min?_cons', List.max?_cons']
  by_cases hvs : vs = []
  · subst hvs
    simp [medianOfSpec, List.insertionSort, List.orderedInsert, Int.fdiv_one]
  · have hlen2 : 2 ≤ (v :: vs).length := by
      cases vs with
      | nil => exact absurd rfl hvs
      | cons a as => simp [List.length_cons]
    have hne1 : (((v :: vs).length : Nat) : Int) ≠ 1 := by
      have h' : (v :: vs).length ≠ 1 := by omega
      exact_mod_cast h'
    have hge2 : (2 : Int) ≤ (((v :: vs).length : Nat) : Int) := by exact_mod_cast hlen2
    rw [if_neg hne1, if_pos hge2]
    rw [if_pos (show (1:Int) ≤ (((v :: vs).length : Nat) : Int) by omega)]
    have hSlen : (List.insertionSort (fun a b => a ≤ b) (v :: vs)).length = (v :: vs).length :=
      List.length_insertionSort _ _
    simp only [medianOfSpec]
    rw [hSlen]
    by_cases hodd : (v :: vs).length % 2 = 1
    · have hoddZ : (((v :: vs).length : Nat) : Int) % 2 = 1 := by omega
      rw [if_pos hoddZ, if_pos hodd]
      have hfd : (((v :: vs).length : Nat) : Int).fdiv 2 = (((v :: vs).length / 2 : Nat) : Int) := by
        have h2 := Int.ofNat_fdiv (v :: vs).length 2
        simpa using h2.symm
      rw [hfd]
      have hbound : (v :: vs).length / 2 < (List.insertionSort (fun a b => a ≤ b) (v :: vs)).length := by
        rw [hSlen]; omega
      rw [pyIndex_natCast _ _ hbound]
      simp only [List.getD_eq_getElem?_getD, List.getElem?_eq_getElem hbound, Option.getD_some]
    · have hevenZ : ¬ ((((v :: vs).length : Nat) : Int) % 2 = 1) := by omega
      rw [if_neg hevenZ, if_neg hodd]
      have hfd : (((v :: vs).length : Nat) : Int).fdiv 2 = (((v :: vs).length / 2 : Nat) : Int) := by
        have h2 := Int.ofNat_fdiv (v :: vs).length 2
        simpa using h2.symm
      rw [hfd]
      have hcast : (((v :: vs).length / 2 : Nat) : Int) - 1 = ((((v :: vs).length / 2 - 1 : Nat)) : Int) := by
        omega
      rw [hcast]
      have hbound : (v :: vs).length / 2 < (List.insertionSort (fun a b => a ≤ b) (v :: vs)).length := by
        rw [hSlen]; omega
      have hbound' : (v :: vs).length / 2 - 1 < (List.insertionSort (fun a b => a ≤ b) (v :: vs)).length := by
        rw [hSlen]; omega
      rw [pyIndex_natCast _ _ hbound, pyIndex_natCast _ _ hbound']
      simp only [List.getD_eq_getElem?_getD, List.getElem?_eq_getElem hbound,
        List.getElem?_eq_getElem hbound', Option.getD_some]

lemma mccabeParseCAux_len (ls : List String) : ∀ (n : Int) (vs : List Int),
    n = (vs.length : Int) →
    (mccabeParseCAux ls n vs).1 = (((mccabeParseCAux ls n vs).2).length : Int) := by
  induction ls with
  | nil => intro n vs h; simpa [mccabeParseCAux] using h
  | cons l ls ih =>
    intro n vs h
    unfold mccabeParseCAux
    cases hp : parseLineC l with
    | none => exact ih n vs h
    | some v => exact ih (n + 1) (vs ++ [v]) (by simp [h])

lemma mccabeParsePyAux_len (ls : List String) : ∀ (n : Int) (vs : List Int),
    n = (vs.length : Int) →
    (mccabeParsePyAux ls n vs).1 = (((mccabeParsePyAux ls n vs).2).length : Int) := by
  induction ls with
  | nil => intro n vs h; simpa [mccabeParsePyAux] using h
  | cons l ls ih =>
    intro n vs h
    unfold mccabeParsePyAux
    cases hp : matchMccabeLine l with
    | none => exact ih n vs h
    | some v => exact ih (n + 1) (vs ++ [(v : Int)]) (by simp [h])

/-- C2.  Aggregator correctness: for every nonempty list of non-negative
integer complexity values with unit count equal to the list length,
`_get_mccabe_stats` returns sum = the sum of the values, min and max = the
least and greatest value (a member of the list below resp. above all
members), mean = sum floor-divided by the count (which on these
non-negative inputs coincides with truncating division, the last
conjunct), and median = the spec's sorted-middle rule `medianOfSpec`. -/
theorem mccabe_stats_correct (values : List Int) (hne : values ≠ [])
    (hnn : ∀ v ∈ values, 0 ≤ v) :
    ∃ mn mx, values.min? = some mn ∧ values.max? = some mx ∧
      mn ∈ values ∧ mx ∈ values ∧ (∀ v ∈ values, mn ≤ v ∧ v ≤ mx) ∧
      getMccabeStats (values.length : Int) values =
        some (values.sum, mn, mx, Int.fdiv values.sum (values.length : Int),
          medianOfSpec values) ∧
      Int.fdiv values.sum (values.length : Int) =
        Int.tdiv values.sum (values.length : Int) := by
  obtain ⟨mn, mx, hmn, hmx, heq⟩ := getMccabeStats_eq_of_len values hne
  refine ⟨mn, mx, hmn, hmx, ?_, ?_, ?_, heq, ?_⟩
  · exact List.min?_mem (fun a b => min_choice a b) hmn
  · exact List.max?_mem (fun a b => max_choice a b) hmx
  · intro v hv
    constructor
    · exact (List.le_min?_iff (fun a b c => le_min_iff) hmn).mp le_rfl v hv
    · exact (List.max?_le_iff (fun a b c => max_le_iff) hmx).mp le_rfl v hv
  · exact Int.fdiv_eq_tdiv (List.sum_nonneg hnn) (by exact_mod_cast Nat.zero_le _)

/-- Witness for C2 at the spec's own example `[2, 4]`:
sum 6, min 2, max 4, mean 3, median 3. -/
theorem mccabe_stats_correct_witness :
    ∃ mn mx, ([2, 4] : List Int).min? = some mn ∧ ([2, 4] : List Int).max? = some mx ∧
      mn ∈ ([2, 4] : List Int) ∧ mx ∈ ([2, 4] : List Int) ∧
      (∀ v ∈ ([2, 4] : List Int), mn ≤ v ∧ v ≤ mx) ∧
      getMccabeStats (([2, 4] : List Int).length : Int) [2, 4] =
        some (([2, 4] : List Int).sum, mn, mx,
          Int.fdiv ([2, 4] : List Int).sum (([2, 4] : List Int).length : Int),
          medianOfSpec [2, 4]) ∧
      Int.fdiv ([2, 4] : List Int).sum (([2, 4] : List Int).length : Int) =
        Int.tdiv ([2, 4] : List Int).sum (([2, 4] : List Int).length : Int) :=
  mccabe_stats_correct [2, 4] (by decide) (by decide)

/-- C3.  Zero-units degenerate case: whenever the tool output yields no
parsed function units (the collected `mccabe_values` list is empty), both
the C and the Python analyzer return all five McCabe fields and the
function count as Python `None`, with no exception raised. -/
theorem mccabe_zero_units (linesC linesPy : List String)
    (hC : (mccabeParseC linesC).2 = []) (hPy : (mccabeParsePy linesPy).2 = []) :
    getMccabeComplexityC linesC = some (none, none, none, none, none, none) ∧
    getMccabeComplexityPython linesPy = some (none, none, none, none, none, none) := by
  constructor
  · simp only [getMccabeComplexityC]
    rw [if_pos hC]
  · simp only [getMccabeComplexityPython]
    rw [if_pos hPy]

/-- Witness for C3: a line with no tab fields for the C tool, a line not
matching the pymetrics pattern for the Python tool. -/
theorem mccabe_zero_units_witness :
    getMccabeComplexityC ["no function lines here"] =
      some (none, none, none, none, none, none) ∧
    getMccabeComplexityPython ["def f():"] =
      some (none, none, none, none, none, none) :=
  mccabe_zero_units ["no function lines here"] ["def f():"] (by decide) (by decide)

/-- C10.  On both analyzer call paths, the `nfunctions` passed to
`_get_mccabe_stats` equals the length of the accompanying `mccabe_values`
list, so the helper's parity test on `nfunctions` and its indexing by the
list length agree, and the helper raises no exception whenever the list is
nonempty. -/
theorem mccabe_nfunctions_invariant (linesC linesPy : List String) :
    (mccabeParseC linesC).1 = (((mccabeParseC linesC).2).length : Int) ∧
    (mccabeParsePy linesPy).1 = (((mccabeParsePy linesPy).2).length : Int) ∧
    ((mccabeParseC linesC).2 ≠ [] →
      (getMccabeStats (mccabeParseC linesC).1 (mccabeParseC linesC).2).isSome = true) ∧
    ((mccabeParsePy linesPy).2 ≠ [] →
      (getMccabeStats (mccabeParsePy linesPy).1 (mccabeParsePy linesPy).2).isSome = true) := by
  have hc : (mccabeParseC linesC).1 = (((mccabeParseC linesC).2).length : Int) :=
    mccabeParseCAux_len linesC 0 [] (by simp)
  have hp : (mccabeParsePy linesPy).1 = (((mccabeParsePy linesPy).2).length : Int) :=
    mccabeParsePyAux_len linesPy 0 [] (by simp)
  refine ⟨hc, hp, ?_, ?_⟩
  · intro hne
    obtain ⟨mn, mx, _, _, heq⟩ := getMccabeStats_eq_of_len (mccabeParseC linesC).2 hne
    rw [hc, heq]
    rfl
  · intro hne
    obtain ⟨mn, mx, _, _, heq⟩ := getMccabeStats_eq_of_len (mccabeParsePy linesPy).2 hne
    rw [hp, heq]
    rfl

/-- Witness for C10 at a concrete C-tool output line and pymetrics line. -/
theorem mccabe_nfunctions_invariant_witness :
    (getMccabeStats (mccabeParseC ["a\tb\tc\t2\te"]).1
      (mccabeParseC ["a\tb\tc\t2\te"]).2).isSome = true ∧
    (getMccabeStats (mccabeParsePy ["  7 f"]).1
      (mccabeParsePy ["  7 f"]).2).isSome = true :=
  ⟨(mccabe_nfunctions_invariant ["a\tb\tc\t2\te"] ["  7 f"]).2.2.1 (by decide),
   (mccabe_nfunctions_invariant ["a\tb\tc\t2\te"] ["  7 f"]).2.2.2 (by decide)⟩

lemma retryLoopAux_all_fail (rev : String) (getLast : Nat → Except String String)
    (h : ∀ k s, getLast k = Except.ok s → s ≠ rev) :
    ∀ fuel count, retryLoopAux rev getLast fuel count = count + fuel := by
  intro fuel
  induction fuel with
  | zero => intro count; rfl
  | succ f ih =>
    intro count
    unfold retryLoopAux
    cases hg : getLast count with
    | ok s =>
      simp only
      rw [if_neg (fun he : rev = s => h count s hg he.symm)]
      rw [ih (count + 1)]
      omega
    | error e =>
      simp only
      rw [ih (count + 1)]
      omega

/-- C4.  Materializer retry bound: against a backend whose post-operation
revision verification never returns the requested revision (and never
raises), both `__checkout` and `__update` issue exactly `RETRIES + 1`
attempts — with the source's `RETRIES = 1`, exactly two — and then return
normally. -/
theorem materializer_retry_bound (retries : Nat) (rev : String)
    (getLast : Nat → Except String String)
    (h : ∀ k, ∃ s, getLast k = Except.ok s ∧ s ≠ rev) :
    checkoutAttempts retries rev getLast = retries + 1 ∧
    updateAttempts retries rev getLast = retries + 1 ∧
    checkoutAttempts RETRIES rev getLast = 2 ∧
    updateAttempts RETRIES rev getLast = 2 := by
  have h' : ∀ k s, getLast k = Except.ok s → s ≠ rev := by
    intro k s hks
    obtain ⟨s', hs', hne⟩ := h k
    rw [hks] at hs'
    cases hs'
    exact hne
  have key : ∀ r : Nat, retryLoopAux rev getLast (r + 1) 0 = r + 1 := by
    intro r
    rw [retryLoopAux_all_fail rev getLast h' (r + 1) 0]
    omega
  exact ⟨key retries, key retries, key RETRIES, key RETRIES⟩

/-- Witness for C4: a backend that always reports revision `"other"` when
`"wanted"` was requested makes both loops give up after exactly two
attempts. -/
theorem materializer_retry_bound_witness :
    checkoutAttempts RETRIES "wanted" (fun _ => Except.ok "other") = 2 ∧
    updateAttempts RETRIES "wanted" (fun _ => Except.ok "other") = 2 :=
  ⟨(materializer_retry_bound RETRIES "wanted" (fun _ => Except.ok "other")
      (fun _ => ⟨"other", rfl, by decide⟩)).2.2.1,
   (materializer_retry_bound RETRIES "wanted" (fun _ => Except.ok "other")
      (fun _ => ⟨"other", rfl, by decide⟩)).2.2.2⟩

/-! ### Proofs about the driver loop -/

lemma svnFold_fields {μ : Type} (env : Env μ) (rp rev : String) :
    ∀ (tds : List (String × String)) (s : RunState μ),
    (tds.foldl (svnUpdateStep env rp rev) s).idCounter = s.idCounter ∧
    (tds.foldl (svnUpdateStep env rp rev) s).currentRevision = s.currentRevision ∧
    (tds.foldl (svnUpdateStep env rp rev) s).pending = s.pending ∧
    (tds.foldl (svnUpdateStep env rp rev) s).inserted = s.inserted ∧
    (tds.foldl (svnUpdateStep env rp rev) s).errors = s.errors ∧
    (tds.foldl (svnUpdateStep env rp rev) s).measured = s.measured ∧
    (tds.foldl (svnUpdateStep env rp rev) s).flushes = s.flushes := by
  intro tds
  induction tds with
  | nil => intro s; exact ⟨rfl, rfl, rfl, rfl, rfl, rfl, rfl⟩
  | cons td tds ih =>
    intro s
    have hstep : (svnUpdateStep env rp rev s td).idCounter = s.idCounter ∧
        (svnUpdateStep env rp rev s td).currentRevision = s.currentRevision ∧
        (svnUpdateStep env rp rev s td).pending = s.pending ∧
        (svnUpdateStep env rp rev s td).inserted = s.inserted ∧
        (svnUpdateStep env rp rev s td).errors = s.errors ∧
        (svnUpdateStep env rp rev s td).measured = s.measured ∧
        (svnUpdateStep env rp rev s td).flushes = s.flushes := by
      unfold svnUpdateStep
      split
      · exact ⟨rfl, rfl, rfl, rfl, rfl, rfl, rfl⟩
      · split
        · exact ⟨rfl, rfl, rfl, rfl, rfl, rfl, rfl⟩
        · exact ⟨rfl, rfl, rfl, rfl, rfl, rfl, rfl⟩
    obtain ⟨a1, a2, a3, a4, a5, a6, a7⟩ := ih (svnUpdateStep env rp rev s td)
    obtain ⟨b1, b2, b3, b4, b5, b6, b7⟩ := hstep
    simp only [List.foldl_cons]
    exact ⟨a1.trans b1, a2.trans b2, a3.trans b3, a4.trans b4, a5.trans b5,
      a6.trans b6, a7.trans b7⟩

lemma materializePhase_fields {μ : Type} (env : Env μ) (st : RunState μ)
    (rp rev revision : String) :
    (materializePhase env st rp rev revision).idCounter = st.idCounter ∧
    (materializePhase env st rp rev revision).pending = st.pending ∧
    (materializePhase env st rp rev revision).inserted = st.inserted ∧
    (materializePhase env st rp rev revision).errors = st.errors ∧
    (materializePhase env st rp rev revision).measured = st.measured ∧
    (materializePhase env st rp rev revision).flushes = st.flushes := by
  unfold materializePhase
  split
  · split
    · obtain ⟨a1, _, a3, a4, a5, a6, a7⟩ := svnFold_fields env rp rev env.topdirs st
      exact ⟨a1, a3, a4, a5, a6, a7⟩
    · exact ⟨rfl, rfl, rfl, rfl, rfl, rfl⟩
  · exact ⟨rfl, rfl, rfl, rfl, rfl, rfl⟩

/-- C7.  Skip-on-delete: for a non-CVS repository, a work item whose path
the history oracle reports deleted at the item's resolved revision is
skipped with the state entirely unchanged — in particular no
checkout/update (`ops`) and no analyzer invocation (`measured`) happen
for it; and for the CVS variant the deletion oracle is never consulted:
two environments differing only in it behave identically. -/
theorem skip_on_delete {μ : Type} (env : Env μ) (skipSet : List (Nat × Nat))
    (st : RunState μ) (it : WorkItem)
    (htype : env.repoType ≠ "cvs")
    (hdel : env.path_is_deleted it.path it.file_id (resolveRev it) = true) :
    processItem env skipSet st it = st ∧
    (∀ (env1 env2 : Env μ), env1.repoType = "cvs" → env2.repoType = "cvs" →
      env1.topdirs = env2.topdirs → env1.path_for_revision = env2.path_for_revision →
      env1.checkoutEffect = env2.checkoutEffect → env1.updateEffect = env2.updateEffect →
      env1.measure = env2.measure →
      processItem env1 skipSet st it = processItem env2 skipSet st it) := by
  constructor
  · unfold processItem
    split
    · rfl
    · rw [if_pos ⟨htype, hdel⟩]
  · intro env1 env2 h1 h2 htd hpfr hce hue hm
    obtain ⟨rt1, td1, pid1, pfr1, ce1, ue1, m1⟩ := env1
    obtain ⟨rt2, td2, pid2, pfr2, ce2, ue2, m2⟩ := env2
    simp only at h1 h2 htd hpfr hce hue hm
    subst h1 h2 htd hpfr hce hue hm
    unfold processItem
    by_cases hmem : (it.file_id, it.commit_id) ∈ skipSet
    · rw [if_pos hmem, if_pos hmem]
    · rw [if_neg hmem, if_neg hmem]
      simp only [ne_eq, not_true_eq_false, false_and, if_false]
      rfl

/-- C8 (amended).  Directory-or-missing skip: a work item that passes the
skip-set and deletion guards and whose materialized checkout path is a
directory on disk is skipped silently (the source's line 667-668
`continue` logs nothing, contrary to the claim's "with a logged error" —
see `dir_skip_logs_no_error`); one whose path does not exist is skipped
with one logged error.  In both cases no measurement row is appended
(pending, inserted and errors are those of the materialize phase, which
leaves them unchanged) and the loop continues — the condition is not
fatal. -/
theorem dir_or_missing_skip {μ : Type} (env : Env μ) (skipSet : List (Nat × Nat))
    (st : RunState μ) (it : WorkItem)
    (hmem : (it.file_id, it.commit_id) ∉ skipSet)
    (hnd : ¬(env.repoType ≠ "cvs" ∧
      env.path_is_deleted it.path it.file_id (resolveRev it) = true))
    (st1 : RunState μ)
    (hst1 : st1 = materializePhase env st (relativePathOf env it) (resolveRev it) it.revision) :
    st1.pending = st.pending ∧ st1.inserted = st.inserted ∧ st1.errors = st.errors ∧
    (st1.disk (relativePathOf env it) = PathKind.dir →
      processItem env skipSet st it = st1) ∧
    (st1.disk (relativePathOf env it) = PathKind.absent →
      processItem env skipSet st it =
        { st1 with errors := st1.errors ++ [relativePathOf env it] }) := by
  have hf := materializePhase_fields env st (relativePathOf env it) (resolveRev it) it.revision
  rw [← hst1] at hf
  refine ⟨hf.2.1, hf.2.2.1, hf.2.2.2.1, ?_, ?_⟩
  · intro hdisk
    unfold processItem
    rw [if_neg hmem, if_neg hnd, ← hst1]
    unfold measurePhase
    rw [hdisk]
  · intro hdisk
    unfold processItem
    rw [if_neg hmem, if_neg hnd, ← hst1]
    unfold measurePhase
    rw [hdisk]

lemma processItem_flush_boundary {μ : Type} (env : Env μ) (skipSet : List (Nat × Nat))
    (st : RunState μ) (it : WorkItem) (hlt : st.pending.length < MAX_METRICS) :
    (processItem env skipSet st it).pending.length < MAX_METRICS ∧
    ((processItem env skipSet st it).flushes = st.flushes ∨
     ((processItem env skipSet st it).flushes = st.flushes ++ [MAX_METRICS] ∧
      st.pending.length + 1 = MAX_METRICS ∧
      (processItem env skipSet st it).pending = [])) := by
  unfold processItem
  split
  · exact ⟨hlt, Or.inl rfl⟩
  split
  · exact ⟨hlt, Or.inl rfl⟩
  have hf := materializePhase_fields env st (relativePathOf env it) (resolveRev it) it.revision
  obtain ⟨h1, h2, h3, h4, h5, h6⟩ := hf
  unfold measurePhase
  split
  · rw [h2, h6]; exact ⟨hlt, Or.inl rfl⟩
  · rw [h2, h6]; exact ⟨hlt, Or.inl rfl⟩
  · simp only [h1, h2, h3, h4, h5, h6, List.length_append, List.length_cons,
      List.length_nil, Nat.zero_add]
    by_cases hflush : MAX_METRICS ≤ st.pending.length + 1
    · rw [if_pos hflush]
      have hemax : st.pending.length + 1 = MAX_METRICS := by omega
      refine ⟨by simp [MAX_METRICS], Or.inr ⟨?_, hemax, rfl⟩⟩
      simp only [hemax]
    · rw [if_neg hflush]
      exact ⟨by simpa using hflush, Or.inl rfl⟩

lemma finalFlush_empty {μ : Type} (st : RunState μ) (h : st.pending = []) :
    finalFlush st = st := by
  unfold finalFlush
  split
  · rfl
  · rename_i a l heq
    rw [h] at heq
    cases heq

lemma finalFlush_nonempty {μ : Type} (st : RunState μ) (h : st.pending ≠ []) :
    (finalFlush st).flushes = st.flushes ++ [st.pending.length] ∧
    (finalFlush st).inserted = st.inserted ++ st.pending ∧
    (finalFlush st).pending = [] := by
  unfold finalFlush
  split
  · rename_i heq; exact absurd heq h
  · exact ⟨rfl, rfl, rfl⟩

lemma batch_step (st : RunState Unit)
    (hcr : st.currentRevision = some "r") (hd : st.disk "p" = PathKind.file "p") :
    processItem batchEnv [] st batchItem =
      if MAX_METRICS ≤ st.pending.length + 1 then
        { st with measured := st.measured ++ [("p", "r")],
                  pending := [],
                  inserted := st.inserted ++ (st.pending ++ [MRow.mk st.idCounter 0 0 ()]),
                  flushes := st.flushes ++ [st.pending.length + 1],
                  idCounter := st.idCounter + 1 }
      else
        { st with measured := st.measured ++ [("p", "r")],
                  pending := st.pending ++ [MRow.mk st.idCounter 0 0 ()],
                  idCounter := st.idCounter + 1 } := by
  have hmem : ((batchItem.file_id, batchItem.commit_id) ∈ ([] : List (Nat × Nat))) = False := by
    simp
  unfold processItem
  rw [if_neg (by simp)]
  rw [if_neg (by simp [batchEnv])]
  have hrp : relativePathOf batchEnv batchItem = "p" := rfl
  have hrev : resolveRev batchItem = "r" := rfl
  rw [hrp, hrev]
  have hmat : materializePhase batchEnv st "p" "r" batchItem.revision = st := by
    unfold materializePhase
    rw [if_neg (by simp [batchItem, hcr])]
  rw [hmat]
  unfold measurePhase
  rw [hd]
  simp only [List.length_append, List.length_cons, List.length_nil, Nat.zero_add]
  by_cases hflush : MAX_METRICS ≤ st.pending.length + 1
  · rw [if_pos hflush, if_pos hflush]
    rfl
  · rw [if_neg hflush, if_neg hflush]
    rfl

lemma batch_fold (n : Nat) : ∀ (st : RunState Unit),
    st.currentRevision = some "r" → st.disk "p" = PathKind.file "p" →
    st.pending.length < MAX_METRICS →
    ((List.replicate n batchItem).foldl (processItem batchEnv []) st).currentRevision = some "r" ∧
    ((List.replicate n batchItem).foldl (processItem batchEnv []) st).disk "p" = PathKind.file "p" ∧
    ((List.replicate n batchItem).foldl (processItem batchEnv []) st).pending.length
      = (st.pending.length + n) % MAX_METRICS ∧
    ((List.replicate n batchItem).foldl (processItem batchEnv []) st).flushes
      = st.flushes ++ List.replicate ((st.pending.length + n) / MAX_METRICS) MAX_METRICS := by
  induction n with
  | zero =>
    intro st h1 h2 h3
    refine ⟨h1, h2, ?_, ?_⟩
    · simpa using (Nat.mod_eq_of_lt h3).symm
    · simp [Nat.div_eq_of_lt h3]
  | succ n ih =>
    intro st h1 h2 h3
    rw [List.replicate_succ, List.foldl_cons, batch_step st h1 h2]
    have hM : MAX_METRICS = 100 := rfl
    by_cases hflush : MAX_METRICS ≤ st.pending.length + 1
    · rw [if_pos hflush]
      have hemax : st.pending.length + 1 = 100 := by omega
      obtain ⟨i1, i2, i3, i4⟩ := ih
        { st with measured := st.measured ++ [("p", "r")],
                  pending := [],
                  inserted := st.inserted ++ (st.pending ++ [MRow.mk st.idCounter 0 0 ()]),
                  flushes := st.flushes ++ [st.pending.length + 1],
                  idCounter := st.idCounter + 1 }
        h1 h2 (by simp [hM])
      refine ⟨i1, i2, ?_, ?_⟩
      · rw [i3]
        dsimp only
        simp only [List.length_nil, hM]
        omega
      · rw [i4]
        dsimp only
        simp only [List.length_nil, hM]
        have hdiv : (st.pending.length + (n + 1)) / 100 = (0 + n) / 100 + 1 := by omega
        rw [hdiv, hemax, List.replicate_succ, List.append_assoc, List.singleton_append]
    · rw [if_neg hflush]
      obtain ⟨i1, i2, i3, i4⟩ := ih
        { st with measured := st.measured ++ [("p", "r")],
                  pending := st.pending ++ [MRow.mk st.idCounter 0 0 ()],
                  idCounter := st.idCounter + 1 }
        h1 h2 (by simp only [List.length_append, List.length_cons, List.length_nil]; omega)
      refine ⟨i1, i2, ?_, ?_⟩
      · rw [i3]
        dsimp only
        simp only [List.length_append, List.length_cons, List.length_nil, hM]
        omega
      · rw [i4]
        dsimp only
        simp only [List.length_append, List.length_cons, List.length_nil]
        have harg : st.pending.length + (0 + 1) + n = st.pending.length + (n + 1) := by omega
        rw [harg]

lemma batch_first_facts :
    (processItem batchEnv [] batchInit batchItem).currentRevision = some "r" ∧
    (processItem batchEnv [] batchInit batchItem).disk "p" = PathKind.file "p" ∧
    (processItem batchEnv [] batchInit batchItem).pending.length = 1 ∧
    (processItem batchEnv [] batchInit batchItem).flushes = [] :=
  ⟨rfl, rfl, rfl, rfl⟩

lemma batchRun250 : (batchRun 250).flushes = [100, 100, 50] := by
  have h250 : List.replicate 250 batchItem = batchItem :: List.replicate 249 batchItem := rfl
  unfold batchRun runMetrics
  rw [h250, List.foldl_cons]
  obtain ⟨f1, f2, f3, f4⟩ := batch_first_facts
  obtain ⟨i1, i2, i3, i4⟩ := batch_fold 249 (processItem batchEnv [] batchInit batchItem)
    f1 f2 (by rw [f3]; decide)
  rw [f3] at i3 i4
  rw [f4] at i4
  have hmod : (1 + 249) % MAX_METRICS = 50 := by decide
  have hdiv : (1 + 249) / MAX_METRICS = 2 := by decide
  rw [hmod] at i3
  rw [hdiv] at i4
  have hne : ((List.replicate 249 batchItem).foldl (processItem batchEnv [])
      (processItem batchEnv [] batchInit batchItem)).pending ≠ [] := by
    intro hh
    rw [hh] at i3
    exact absurd i3.symm (by decide)
  obtain ⟨g1, g2, g3⟩ := finalFlush_nonempty _ hne
  rw [g1, i4, i3]
  rfl

lemma processItem_cases {μ : Type} (env : Env μ) (skipSet : List (Nat × Nat))
    (st : RunState μ) (it : WorkItem) :
    ((processItem env skipSet st it).inserted ++ (processItem env skipSet st it).pending
        = st.inserted ++ st.pending ∧
      (processItem env skipSet st it).idCounter = st.idCounter) ∨
    ((it.file_id, it.commit_id) ∉ skipSet ∧
      (∃ m : μ, (processItem env skipSet st it).inserted ++ (processItem env skipSet st it).pending
        = (st.inserted ++ st.pending) ++ [MRow.mk st.idCounter it.file_id it.commit_id m]) ∧
      (processItem env skipSet st it).idCounter = st.idCounter + 1) := by
  unfold processItem
  split
  · exact Or.inl ⟨rfl, rfl⟩
  rename_i hmem
  split
  · exact Or.inl ⟨rfl, rfl⟩
  obtain ⟨g1, g2, g3, g4, g5, g6⟩ :=
    materializePhase_fields env st (relativePathOf env it) (resolveRev it) it.revision
  unfold measurePhase
  split
  · exact Or.inl ⟨by rw [g2, g3], g1⟩
  · exact Or.inl ⟨by rw [g2, g3], g1⟩
  · rename_i content heq
    refine Or.inr ⟨hmem, ?_, ?_⟩
    · refine ⟨env.measure content, ?_⟩
      dsimp only
      split
      · dsimp only
        rw [List.append_nil, g1, g2, g3, List.append_assoc]
      · dsimp only
        rw [g1, g2, g3, List.append_assoc]
    · dsimp only
      split
      · dsimp only
        rw [g1]
      · dsimp only
        rw [g1]

lemma finalFlush_rows {μ : Type} (st : RunState μ) :
    (finalFlush st).inserted = st.inserted ++ st.pending ∧
    (finalFlush st).pending = [] := by
  unfold finalFlush
  split
  · rename_i heq
    exact ⟨by rw [heq, List.append_nil], heq⟩
  · exact ⟨rfl, rfl⟩

lemma foldl_ids {μ : Type} (env : Env μ) (skipSet : List (Nat × Nat)) (seed : Nat)
    (items : List WorkItem) : ∀ (st : RunState μ),
    allIds st = List.range' seed (allIds st).length →
    st.idCounter = seed + (allIds st).length →
    allIds (items.foldl (processItem env skipSet) st) =
      List.range' seed (allIds (items.foldl (processItem env skipSet) st)).length ∧
    (items.foldl (processItem env skipSet) st).idCounter =
      seed + (allIds (items.foldl (processItem env skipSet) st)).length := by
  induction items with
  | nil => intro st h1 h2; exact ⟨h1, h2⟩
  | cons it items ih =>
    intro st h1 h2
    rw [List.foldl_cons]
    rcases processItem_cases env skipSet st it with ⟨ha, hb⟩ | ⟨_, ⟨m, ha⟩, hb⟩
    · exact ih _ (by unfold allIds; rw [ha]; exact h1) (by unfold allIds; rw [ha, hb]; exact h2)
    · apply ih
      · unfold allIds
        rw [ha]
        rw [List.map_append, List.length_append, List.length_map, List.length_map]
        unfold allIds at h1 h2
        rw [h1, h2]
        simp only [List.map_cons, List.map_nil, List.length_cons, List.length_nil]
        rw [List.range'_concat]
        simp
      · unfold allIds
        rw [ha, hb]
        rw [List.map_append, List.length_append]
        unfold allIds at h2
        rw [h2]
        simp only [List.map_cons, List.map_nil, List.length_cons, List.length_nil,
          List.length_map, List.length_append]
        omega

lemma foldl_pairs {μ : Type} (env : Env μ) (skipSet : List (Nat × Nat))
    (items : List WorkItem) : ∀ (st : RunState μ),
    (∀ r ∈ st.inserted ++ st.pending, ((r : MRow μ).file_id, r.commit_id) ∉ skipSet) →
    ∀ r ∈ (items.foldl (processItem env skipSet) st).inserted ++
        (items.foldl (processItem env skipSet) st).pending,
      ((r : MRow μ).file_id, r.commit_id) ∉ skipSet := by
  induction items with
  | nil => intro st h; exact h
  | cons it items ih =>
    intro st h
    rw [List.foldl_cons]
    rcases processItem_cases env skipSet st it with ⟨ha, _⟩ | ⟨hmem, ⟨m, ha⟩, _⟩
    · exact ih _ (by rw [ha]; exact h)
    · apply ih
      rw [ha]
      intro r hr
      rcases List.mem_append.mp hr with hr1 | hr2
      · exact h r hr1
      · rcases List.mem_singleton.mp hr2 with rfl
        exact hmem

/-- Witness for C7: a deleted path in a git repository is skipped — the
state is returned unchanged. -/
theorem skip_on_delete_witness :
    processItem
      { resumeEnv with path_is_deleted := fun _ _ _ => true } []
      (initState 1 resumeDisk)
      { revision := "r1", path := "a", commit_id := 1, file_id := 1, composed := false } =
      initState 1 resumeDisk :=
  (skip_on_delete { resumeEnv with path_is_deleted := fun _ _ _ => true } []
    (initState 1 resumeDisk)
    { revision := "r1", path := "a", commit_id := 1, file_id := 1, composed := false }
    (by decide) rfl).1

/-- Witness for C8: at a directory path the item is skipped leaving the
state exactly as the materialize phase left it; at a missing path it is
skipped with one error logged. -/
theorem dir_or_missing_skip_witness :
    processItem dirEnv [] (initState 1 dirDisk) dirItem =
      materializePhase dirEnv (initState 1 dirDisk) (relativePathOf dirEnv dirItem)
        (resolveRev dirItem) dirItem.revision ∧
    processItem dirEnv [] (initState 1 dirDisk) missItem =
      { materializePhase dirEnv (initState 1 dirDisk) (relativePathOf dirEnv missItem)
          (resolveRev missItem) missItem.revision with
        errors := (materializePhase dirEnv (initState 1 dirDisk)
          (relativePathOf dirEnv missItem) (resolveRev missItem)
          missItem.revision).errors ++ [relativePathOf dirEnv missItem] } :=
  ⟨(dir_or_missing_skip dirEnv [] (initState 1 dirDisk) dirItem
      (by decide) (by decide) _ rfl).2.2.2.1 rfl,
   (dir_or_missing_skip dirEnv [] (initState 1 dirDisk) missItem
      (by decide) (by decide) _ rfl).2.2.2.2 rfl⟩

/-- C8 counterexample to the claim as stated: when the materialized path
is a directory, the source's line 667-668 `continue` logs nothing — the
claim's "skips that item with a logged error" is false for the directory
case.  Here the checkout path `"somedir"` is a directory at the check,
the item is skipped (no row is appended), yet the error log stays
empty. -/
theorem dir_skip_logs_no_error :
    (materializePhase dirEnv (initState 1 dirDisk) (relativePathOf dirEnv dirItem)
        (resolveRev dirItem) dirItem.revision).disk (relativePathOf dirEnv dirItem) =
      PathKind.dir ∧
    (processItem dirEnv [] (initState 1 dirDisk) dirItem).errors = [] ∧
    (processItem dirEnv [] (initState 1 dirDisk) dirItem).pending = [] ∧
    (processItem dirEnv [] (initState 1 dirDisk) dirItem).inserted = [] := by
  refine ⟨rfl, rfl, rfl, rfl⟩

/-- C5.  Batch flush boundary: while the pending batch stays below
`MAX_METRICS = 100`, one loop iteration either leaves the flush log alone
or — exactly when the appended record makes the batch reach 100 — flushes
a batch of exactly 100 and empties the pending list; the final
`__insert_many` flushes the (non-empty) remainder once; and a run
producing 250 records flushes batches of sizes 100, 100 and 50. -/
theorem batch_flush_boundary :
    (∀ (μ : Type) (env : Env μ) (skipSet : List (Nat × Nat)) (st : RunState μ)
      (it : WorkItem), st.pending.length < MAX_METRICS →
      (processItem env skipSet st it).pending.length < MAX_METRICS ∧
      ((processItem env skipSet st it).flushes = st.flushes ∨
       ((processItem env skipSet st it).flushes = st.flushes ++ [MAX_METRICS] ∧
        st.pending.length + 1 = MAX_METRICS ∧
        (processItem env skipSet st it).pending = []))) ∧
    (∀ (μ : Type) (st : RunState μ), st.pending = [] → finalFlush st = st) ∧
    (∀ (μ : Type) (st : RunState μ), st.pending ≠ [] →
      (finalFlush st).flushes = st.flushes ++ [st.pending.length]) ∧
    MAX_METRICS = 100 ∧
    (batchRun 250).flushes = [100, 100, 50] :=
  ⟨fun _ env skipSet st it h => processItem_flush_boundary env skipSet st it h,
   fun _ st h => finalFlush_empty st h,
   fun _ st h => (finalFlush_nonempty st h).1,
   rfl,
   batchRun250⟩

/-- Witness for C5: the 250-record run flushes 100, 100, 50; a run of one
record flushes nothing in the loop; the final flush of the one-record
remainder inserts it. -/
theorem batch_flush_boundary_witness :
    ((processItem batchEnv [] batchInit batchItem).pending.length < MAX_METRICS ∧
      ((processItem batchEnv [] batchInit batchItem).flushes = batchInit.flushes ∨
       ((processItem batchEnv [] batchInit batchItem).flushes =
          batchInit.flushes ++ [MAX_METRICS] ∧
        batchInit.pending.length + 1 = MAX_METRICS ∧
        (processItem batchEnv [] batchInit batchItem).pending = []))) ∧
    finalFlush batchInit = batchInit ∧
    (batchRun 250).flushes = [100, 100, 50] :=
  ⟨batch_flush_boundary.1 Unit batchEnv [] batchInit batchItem (by decide),
   batch_flush_boundary.2.1 Unit batchInit rfl,
   batch_flush_boundary.2.2.2.2⟩

/-- C6.  Monotonic id seeding: `id_counter` is seeded 1 on a fresh table,
`max(id) + 1` on resume and 1 when the existing table is empty; one loop
iteration advances `id_counter` by exactly the number of rows it appends
(one or zero); and a whole run from loop entry leaves inserted rows whose
ids are consecutive from the seed (`List.range' seed count`), with
nothing left pending. -/
theorem id_seeding_monotonic :
    seedId false none = 1 ∧ seedId true none = 1 ∧
    (∀ m : Nat, seedId true (some m) = m + 1) ∧
    (∀ (μ : Type) (env : Env μ) (skipSet : List (Nat × Nat)) (st : RunState μ)
      (it : WorkItem),
      (processItem env skipSet st it).idCounter + (allIds st).length =
        st.idCounter + (allIds (processItem env skipSet st it)).length) ∧
    (∀ (μ : Type) (env : Env μ) (skipSet : List (Nat × Nat)) (items : List WorkItem)
      (seed : Nat) (disk0 : String → PathKind),
      (runMetrics env skipSet items (initState seed disk0)).inserted.map MRow.id =
        List.range' seed
          ((runMetrics env skipSet items (initState seed disk0)).inserted.length) ∧
      (runMetrics env skipSet items (initState seed disk0)).pending = []) := by
  refine ⟨rfl, rfl, fun m => rfl, ?_, ?_⟩
  · intro μ env skipSet st it
    rcases processItem_cases env skipSet st it with ⟨ha, hb⟩ | ⟨_, ⟨m, ha⟩, hb⟩
    · rw [hb]
      unfold allIds
      rw [ha]
    · rw [hb]
      unfold allIds
      rw [ha]
      simp only [List.map_append, List.length_append, List.length_map,
        List.map_cons, List.map_nil, List.length_cons, List.length_nil]
      omega
  · intro μ env skipSet items seed disk0
    obtain ⟨i1, i2⟩ := foldl_ids env skipSet seed items (initState seed disk0) rfl rfl
    obtain ⟨f1, f2⟩ := finalFlush_rows
      (items.foldl (processItem env skipSet) (initState seed disk0))
    unfold runMetrics
    refine ⟨?_, f2⟩
    rw [f1]
    have hlen : ((items.foldl (processItem env skipSet) (initState seed disk0)).inserted ++
        (items.foldl (processItem env skipSet) (initState seed disk0)).pending).length =
        (allIds (items.foldl (processItem env skipSet) (initState seed disk0))).length :=
      (List.length_map _ _).symm
    rw [hlen]
    exact i1

/-- C1 (amended).  Skip-set resume: a work item whose `(file_id,
commit_id)` pair is already in the skip-set is skipped with the state
completely unchanged (no checkout, no measurement, no row); consequently
every row a run inserts has a pair that was NOT in the skip-set when the
run started, so a re-run inserts no duplicate of an already-present pair.
(The original claim's further conclusion — that a second run leaves the
same row count as a single run — is refuted by
`skip_set_resume_counterexample`.) -/
theorem skip_set_resume :
    (∀ (μ : Type) (env : Env μ) (skipSet : List (Nat × Nat)) (st : RunState μ)
      (it : WorkItem), (it.file_id, it.commit_id) ∈ skipSet →
      processItem env skipSet st it = st) ∧
    (∀ (μ : Type) (env : Env μ) (skipSet : List (Nat × Nat)) (items : List WorkItem)
      (seed : Nat) (disk0 : String → PathKind),
      ∀ r ∈ (runMetrics env skipSet items (initState seed disk0)).inserted,
        ((r : MRow μ).file_id, r.commit_id) ∉ skipSet) := by
  constructor
  · intro μ env skipSet st it h
    unfold processItem
    rw [if_pos h]
  · intro μ env skipSet items seed disk0 r hr
    have h := foldl_pairs env skipSet items (initState seed disk0)
      (by intro r hr; exact absurd hr (List.not_mem_nil r))
    obtain ⟨f1, f2⟩ := finalFlush_rows
      (items.foldl (processItem env skipSet) (initState seed disk0))
    unfold runMetrics at hr
    rw [f1] at hr
    exact h r hr

/-- Witness for C1: a work item whose pair is in the skip-set leaves the
state untouched. -/
theorem skip_set_resume_witness :
    processItem resumeEnv [(1, 1)] (initState 1 resumeDisk)
      { revision := "r1", path := "a", commit_id := 1, file_id := 1, composed := false } =
      initState 1 resumeDisk :=
  skip_set_resume.1 String resumeEnv [(1, 1)] (initState 1 resumeDisk)
    { revision := "r1", path := "a", commit_id := 1, file_id := 1, composed := false }
    (by decide)

/-- C1 counterexample to the claim's "running the Driver a second time
... leaves the same row count and field values as a single run": in
`resumeItems` both items share revision `"r1"`, so the first run checks
out only item 1's path (`current_revision` caching skips the checkout for
item 2), finds item 2's file missing and inserts a single row; the second
run skips item 1 through the skip-set, therefore re-runs the checkout for
item 2 — whose file now materializes — and inserts a second row (for the
pair `(2, 1)`, absent from the skip-set, so still no duplicate pair).
Row count after running twice is 2, not the single run's 1. -/
theorem skip_set_resume_counterexample :
    resumeRun1.inserted.length = 1 ∧
    resumeRun1.errors = ["b"] ∧
    resumeRun2.inserted.length = 1 ∧
    resumeRun2.inserted.map (fun r => (r.file_id, r.commit_id)) = [(2, 1)] ∧
    (resumeRun1.inserted ++ resumeRun2.inserted).length ≠ resumeRun1.inserted.length := by
  refine ⟨rfl, rfl, rfl, rfl, by decide⟩

/-- C9 (amended).  When the size/language tool sloccount cannot be
located, `create_file_metrics` silently keeps its defaults, so the
measurement phase records `sloc` as the integer 0 and `lang` as
`"unknown"` — the `sloc` slot does NOT stay unset — and no exception is
raised, so measurement of the remaining fields and subsequent files
continues. -/
theorem sloc_missing_tool_behavior (outputlines : List String) (path : String) :
    runSlocPhase false outputlines path =
      Except.ok (some (PyV.vint 0), "unknown") :=
  rfl

/-- C9 counterexample to the claim as stated: with sloccount missing the
recorded `measures.sloc` is `some (vint 0)` — set, and set to zero — not
the unset `none` the claim requires. -/
theorem sloc_missing_tool_counterexample :
    runSlocPhase false [] "file.c" = Except.ok (some (PyV.vint 0), "unknown") ∧
    some (PyV.vint 0) ≠ (none : Option PyV) := by
  refine ⟨rfl, by decide⟩

end Metrics
